import Mathlib

/-!
# Verification of the MPI/OpenMP Formula-1 simulator (`main.go`)

Shallow embedding of the concurrency core of the repository
`joaquinkuster/MPI-OpenMP`: the ring simulator `correrMPI`, the
parallel-worker simulator `correrOpenMP` with its shared result table and
aggregation, and the WebSocket command dispatcher `wsHandler`.

Modelling conventions:
* Go `int` parameters become `Int`; loop counters become `Nat` ranges
  (`List.range' 1 n` models `for i := 1; i <= n; i++`).
* `float64` sector/lap times are exact rationals `n / 100` (the Go code
  only ever builds `float64(rand.Intn(k)+m) / 100.0`; at this magnitude the
  float ordering and the `%.2f` rendering agree with the exact rational).
* `rand.Intn k` draws are injected as a function argument `rnd`; the value
  actually used is `rnd … % k`, matching `Intn`'s contract `0 ≤ v < k`.
* Goroutine interleaving of worker log records is nondeterministic in the
  real program; the embedding serializes worker message blocks in worker
  order.  Only interleaving-invariant facts (per-worker record counts, the
  shared table contents, the summary, the terminal markers) are proved
  about the full stream.
* The outbound channel `enviar` (a buffered Go channel) is modelled by
  `Canal`; a Go send on a closed channel panics, which `enviarCanal`
  reflects as an `Except.error`.
-/

/-- Boolean string-prefix test used to classify emitted records by their
leading text (the Go code distinguishes record kinds only by `Tipo` and by
the `Sprintf` text). -/
def hasPref (p s : String) : Bool := p.data.isPrefixOf s.data

/-- Renders an exact rational `n / 100` the way Go's `%.2f` renders the
corresponding `float64` (two decimal digits). -/
def fmt2 (q : ℚ) : String :=
  let n := (q * 100).floor.toNat
  let d := n % 100
  toString (n / 100) ++ "." ++ (if d < 10 then "0" ++ toString d else toString d)

/-- `ResultadoOpenMP` from `main.go`: best lap of one car. -/
structure ResultadoOpenMP where
  autoID : Int
  mejorVuelta : ℚ
  cantidadVueltas : Int
  deriving DecidableEq

/-- The structured `Obj` payload carried by `resumen` messages. -/
inductive ObjWS where
  | resumenMpiObj (mensaje : String)
  | resumenOmpObj (mejorPorAuto : List ResultadoOpenMP) (mejorGeneral : ResultadoOpenMP)
  deriving DecidableEq

/-- `MensajeWS` from `main.go`: one WebSocket record
`{Tipo, Topico, Texto, Obj}`. -/
structure MensajeWS where
  tipo : String
  topico : String := ""
  texto : String := ""
  obj : Option ObjWS := none
  deriving DecidableEq

/-- Sector time generator, `main.go` line 62:
`float64(rand.Intn(2300)+1200) / 100.0`. -/
def tiempoSector (r : ℕ) : ℚ := ((r % 2300 + 1200 : ℕ) : ℚ) / 100

/-- Lap time generator, `main.go` line 109:
`float64(rand.Intn(2099)+7500) / 100.0`. -/
def tiempoVuelta (r : ℕ) : ℚ := ((r % 2099 + 7500 : ℕ) : ℚ) / 100

/-- Error record sent by `correrMPI` when `sectores < 1`. -/
def errorMpi : MensajeWS :=
  { tipo := "registro", topico := "mpi", texto := "Error: sectores debe ser >= 1" }

/-- `finalizado` record with topic `mpi`. -/
def finalizadoMpi : MensajeWS := { tipo := "finalizado", topico := "mpi" }

/-- Start-of-run record of `correrMPI` (reports the resolved parameters). -/
def inicioMpi (sectores vueltas : Int) : MensajeWS :=
  { tipo := "registro", topico := "mpi",
    texto := "Iniciando MPI: " ++
      (toString sectores ++ " sectores, " ++ toString vueltas ++ " vueltas") }

/-- Lap-header record `"=== Vuelta v ==="` emitted at the top of each lap. -/
def encabezadoVuelta (v : ℕ) : MensajeWS :=
  { tipo := "registro", topico := "mpi",
    texto := "=== Vuelta " ++ (toString v ++ " ===") }

/-- Per-sector record `"Tiempo de sector s: t s (vuelta v)"`. -/
def mensajeSector (s : ℕ) (t : ℚ) (v : ℕ) : MensajeWS :=
  { tipo := "registro", topico := "mpi",
    texto := "Tiempo de sector " ++
      (toString s ++ ": " ++ fmt2 t ++ " s (vuelta " ++ toString v ++ ")") }

/-- Summary record of the ring run. -/
def resumenMpi : MensajeWS :=
  { tipo := "resumen", topico := "mpi", obj := some (ObjWS.resumenMpiObj "MPI finalizado") }

/-- `correrMPI` from `main.go` lines 45–74.  `rnd v s` injects the
`rand.Intn(2300)` draw used at lap `v`, sector `s`; the 300 ms sleep is
pure pacing and has no observable effect on the record stream. -/
def correrMPI (sectores vueltas : Int) (rnd : ℕ → ℕ → ℕ) : List MensajeWS :=
  if sectores < 1 then
    [errorMpi, finalizadoMpi]
  else
    let vueltasC := if vueltas < 1 then 1 else vueltas
    inicioMpi sectores vueltasC ::
      ((List.range' 1 vueltasC.toNat).map (fun v =>
        encabezadoVuelta v ::
          (List.range' 1 sectores.toNat).map (fun s =>
            mensajeSector s (tiempoSector (rnd v s)) v))).flatten
      ++ [resumenMpi, finalizadoMpi]

/-- Error record sent by `correrOpenMP` when `cantidadAutos < 1`. -/
def errorOmp : MensajeWS :=
  { tipo := "registro", topico := "openmp", texto := "Error: cantidad de autos debe ser >= 1" }

/-- `finalizado` record with topic `openmp`. -/
def finalizadoOmp : MensajeWS := { tipo := "finalizado", topico := "openmp" }

/-- Start-of-run record of `correrOpenMP`. -/
def inicioOmp (autos vueltas : Int) : MensajeWS :=
  { tipo := "registro", topico := "openmp",
    texto := "Iniciando OpenMP: " ++
      (toString autos ++ " autos, " ++ toString vueltas ++ " vueltas cada uno") }

/-- Common `"Auto <id> - "` prefix of the per-car records. -/
def prefAuto (id : ℕ) : String := "Auto " ++ toString id ++ " - "

/-- Trial record `"Auto id - Vuelta v: t s"`. -/
def mensajeVueltaOmp (id v : ℕ) (t : ℚ) : MensajeWS :=
  { tipo := "registro", topico := "openmp",
    texto := prefAuto id ++ ("Vuelta " ++ toString v ++ ": " ++ fmt2 t ++ " s") }

/-- Personal-best record `"Auto id - Nueva mejor vuelta: t s"`. -/
def mensajeMejorOmp (id : ℕ) (t : ℚ) : MensajeWS :=
  { tipo := "registro", topico := "openmp",
    texto := prefAuto id ++ ("Nueva mejor vuelta: " ++ fmt2 t ++ " s") }

/-- Body of the per-car goroutine of `correrOpenMP` (`main.go` lines
103–118): runs the remaining `n` laps starting at lap number `v` with
current best `best`, returning the emitted records and the final best.
`a` is the 0-based car index; displayed ids are `a + 1`. -/
def autoLoop (a : ℕ) (rnd1 : ℕ → ℕ) : ℕ → ℕ → ℚ → List MensajeWS × ℚ
  | _, 0, best => ([], best)
  | v, n + 1, best =>
    let t := tiempoVuelta (rnd1 v)
    if t < best then
      let r := autoLoop a rnd1 (v + 1) n t
      (mensajeVueltaOmp (a + 1) v t :: mensajeMejorOmp (a + 1) t :: r.1, r.2)
    else
      let r := autoLoop a rnd1 (v + 1) n best
      (mensajeVueltaOmp (a + 1) v t :: r.1, r.2)

/-- The entry car `a` writes into `resultados[a]` after its laps
(`main.go` line 117). -/
def resultadoAuto (a vueltasC : ℕ) (rnd1 : ℕ → ℕ) : ResultadoOpenMP :=
  { autoID := (a : ℤ) + 1,
    mejorVuelta := (autoLoop a rnd1 1 vueltasC (10 ^ 9)).2,
    cantidadVueltas := (vueltasC : ℤ) }

/-- The shared result table after the join barrier: one entry per car. -/
def tablaResultados (autosC vueltasC : ℕ) (rnd : ℕ → ℕ → ℕ) : List ResultadoOpenMP :=
  (List.range autosC).map (fun a => resultadoAuto a vueltasC (rnd a))

/-- Sentinel the aggregation starts from (`main.go` line 127):
`ResultadoOpenMP{AutoID: -1, MejorVuelta: 1e9}` (zero-valued lap count). -/
def centinelaOmp : ResultadoOpenMP :=
  { autoID := -1, mejorVuelta := 10 ^ 9, cantidadVueltas := 0 }

/-- One step of the aggregation loop: keep the accumulator unless the new
entry is strictly better. -/
def pasoMejor (mg r : ResultadoOpenMP) : ResultadoOpenMP :=
  if r.mejorVuelta < mg.mejorVuelta then r else mg

/-- `mejorGeneral` computation of `main.go` lines 127–132. -/
def mejorGeneralDe (rs : List ResultadoOpenMP) : ResultadoOpenMP :=
  rs.foldl pasoMejor centinelaOmp

/-- Summary record of the parallel run (per-car table + overall best). -/
def resumenOmp (rs : List ResultadoOpenMP) (mg : ResultadoOpenMP) : MensajeWS :=
  { tipo := "resumen", topico := "openmp", obj := some (ObjWS.resumenOmpObj rs mg) }

/-- `correrOpenMP` from `main.go` lines 86–139.  `rnd a v` injects the
`rand.Intn(2099)` draw car `a` uses at lap `v` (each car's draws are its
own private subsequence of the global source).  Worker goroutine records
interleave nondeterministically in the real run; the embedding serializes
the per-car blocks in car order and only interleaving-invariant facts are
proved about the stream. -/
def correrOpenMP (cantidadAutos vueltas : Int) (rnd : ℕ → ℕ → ℕ) : List MensajeWS :=
  if cantidadAutos < 1 then
    [errorOmp, finalizadoOmp]
  else
    let vueltasC := if vueltas < 1 then 1 else vueltas
    let tabla := tablaResultados cantidadAutos.toNat vueltasC.toNat rnd
    inicioOmp cantidadAutos vueltasC ::
      ((List.range cantidadAutos.toNat).map (fun a =>
        (autoLoop a (rnd a) 1 vueltasC.toNat (10 ^ 9)).1)).flatten
      ++ [resumenOmp tabla (mejorGeneralDe tabla), finalizadoOmp]

/-- Go runtime failures the embedding can surface. -/
inductive FalloGo where
  | envioEnCanalCerrado
  deriving DecidableEq

/-- The outbound message channel `enviar := make(chan MensajeWS, 100)`:
a close flag plus the buffered contents.  (Backpressure when the buffer is
full is not modelled; only the open/closed distinction matters here.) -/
structure Canal (α : Type) where
  cerrado : Bool
  buffer : List α
  deriving DecidableEq

/-- A Go channel send `c <- x`: sending on a closed channel panics at
runtime (Go language spec), which surfaces as `FalloGo.envioEnCanalCerrado`;
on an open channel the value is enqueued. -/
def enviarCanal (c : Canal α) (x : α) : Except FalloGo (Canal α) :=
  if c.cerrado then Except.error FalloGo.envioEnCanalCerrado
  else Except.ok { c with buffer := c.buffer ++ [x] }

/-- `correrMPI` submitting each of its records through the shared channel.
`main.go` has no `recover` anywhere, so a send-on-closed-channel panic
propagates out of the producer goroutine (which in Go terminates the whole
process); the `Except.error` here is accordingly not handled. -/
def correrMPIEnCanal (sectores vueltas : Int) (rnd : ℕ → ℕ → ℕ)
    (c : Canal MensajeWS) : Except FalloGo (Canal MensajeWS) :=
  (correrMPI sectores vueltas rnd).foldlM enviarCanal c

/-- A value read out of the dynamic JSON command map: absent, a JSON
number (Go decodes every JSON number into `float64`, so the
`.(float64)` type assertion succeeds), or present but non-numeric (the
assertion fails). -/
inductive CampoJson where
  | ausente
  | numero (v : ℚ)
  | otro
  deriving DecidableEq

/-- An inbound start command as read by `wsHandler` (`main.go` lines
166–195): the `action` string plus the loosely-typed numeric fields. -/
structure ComandoWS where
  action : Option String
  sectores : CampoJson := CampoJson.ausente
  vueltas : CampoJson := CampoJson.ausente
  autos : CampoJson := CampoJson.ausente
  deriving DecidableEq

/-- Go's `int(v)` conversion of a `float64`: truncation toward zero. -/
def truncQ (q : ℚ) : Int := if 0 ≤ q then q.floor else -((-q).floor)

/-- `sectores` resolution in the `iniciar_mpi` branch: default `1`,
overridden only when the field holds a number. -/
def resolverSectores (c : ComandoWS) : Int :=
  match c.sectores with
  | CampoJson.numero v => truncQ v
  | _ => 1

/-- `vueltas` resolution in the `iniciar_mpi` branch: default `1`. -/
def resolverVueltasMpi (c : ComandoWS) : Int :=
  match c.vueltas with
  | CampoJson.numero v => truncQ v
  | _ => 1

/-- `autos` resolution in the `iniciar_openmp` branch: default `3`. -/
def resolverAutos (c : ComandoWS) : Int :=
  match c.autos with
  | CampoJson.numero v => truncQ v
  | _ => 3

/-- `vueltas` resolution in the `iniciar_openmp` branch: default `5`. -/
def resolverVueltasOmp (c : ComandoWS) : Int :=
  match c.vueltas with
  | CampoJson.numero v => truncQ v
  | _ => 5

/-- Diagnostic record for an unrecognized action (`%v` of a `nil`
interface prints `<nil>`). -/
def noReconocido (a : Option String) : MensajeWS :=
  { tipo := "registro",
    texto := "Comando no reconocido: " ++ (match a with | some s => s | none => "<nil>") }

/-- The `switch comando["action"]` dispatch of `wsHandler`: resolves the
numeric fields with their defaults and starts the corresponding simulator
(the spawned goroutine's record stream is returned directly). -/
def despachar (c : ComandoWS) (rnd : ℕ → ℕ → ℕ) : List MensajeWS :=
  match c.action with
  | some "iniciar_mpi" => correrMPI (resolverSectores c) (resolverVueltasMpi c) rnd
  | some "iniciar_openmp" => correrOpenMP (resolverAutos c) (resolverVueltasOmp c) rnd
  | a => [noReconocido a]

/-- Record classifiers used by the counting theorems. -/
def esSector (m : MensajeWS) : Bool := hasPref "Tiempo de sector " m.texto

/-- Lap-header classifier. -/
def esEncabezado (m : MensajeWS) : Bool := hasPref "=== Vuelta " m.texto

/-- Start-record classifier for the ring run. -/
def esInicioMpi (m : MensajeWS) : Bool := hasPref "Iniciando MPI: " m.texto

/-- Summary-record classifier. -/
def esResumen (m : MensajeWS) : Bool := m.tipo == "resumen"

/-- Done-record classifier. -/
def esFinalizado (m : MensajeWS) : Bool := m.tipo == "finalizado"

/-- Personal-best classifier for the car with displayed id `id`. -/
def esMejorDe (id : ℕ) (m : MensajeWS) : Bool :=
  hasPref (prefAuto id ++ "Nueva mejor vuelta: ") m.texto

/-- The lap-time list car `a` generates: laps `v, v+1, …, v+n-1`. -/
def tiemposAuto (rnd1 : ℕ → ℕ) (v n : ℕ) : List ℚ :=
  (List.range' v n).map (fun i => tiempoVuelta (rnd1 i))

/-- All-zero injected random source, used by concrete witnesses. -/
def rndCero : ℕ → ℕ → ℕ := fun _ _ => 0

/-- A closed outbound channel (the state after `close(enviar)`). -/
def canalCerrado : Canal MensajeWS := { cerrado := true, buffer := [] }

/-- A start command whose numeric fields are all absent. -/
def comandoMpiVacio : ComandoWS := { action := some "iniciar_mpi" }

/-- An `iniciar_openmp` command whose numeric fields are all absent. -/
def comandoOmpVacio : ComandoWS := { action := some "iniciar_openmp" }

/-! ## String-prefix infrastructure -/

theorem isPrefixOf_append_cancel (x y z : List Char) :
    (x ++ y).isPrefixOf (x ++ z) = y.isPrefixOf z := by
  induction x with
  | nil => rfl
  | cons c cs ih => simp [List.isPrefixOf, ih]

theorem hasPref_self_append (p t : String) : hasPref p (p ++ t) = true := by
  unfold hasPref
  rw [ String.data_append, List.isPrefixOf_iff_prefix]
  exact List.prefix_append _ _

theorem hasPref_append_left (a b c : String) :
    hasPref (a ++ b) (a ++ c) = hasPref b c := by
  unfold hasPref
  rw [ String.data_append, String.data_append]
  exact isPrefixOf_append_cancel _ _ _

theorem hasPref_head_ne (p s t : String) (c d : Char) (cp cs : List Char)
    (hp : p.data = c :: cp) (hs : s.data = d :: cs) (h : (c == d) = false) :
    hasPref p (s ++ t) = false := by
  unfold hasPref
  rw [ String.data_append, hp, hs]
  simp [List.isPrefixOf, h]

/-! ## Classifier evaluation on each record shape -/

theorem esSector_mensajeSector (s : ℕ) (t : ℚ) (v : ℕ) :
    esSector (mensajeSector s t v) = true := by
  simp only [esSector, mensajeSector]
  exact hasPref_self_append _ _

theorem esSector_encabezado (v : ℕ) : esSector (encabezadoVuelta v) = false := by
  simp only [esSector, encabezadoVuelta]
  exact hasPref_head_ne _ _ _ 'T' '=' _ _ rfl rfl (by decide)

theorem esSector_inicio (a b : Int) : esSector (inicioMpi a b) = false := by
  simp only [esSector, inicioMpi]
  exact hasPref_head_ne _ _ _ 'T' 'I' _ _ rfl rfl (by decide)

theorem esEncabezado_encabezado (v : ℕ) : esEncabezado (encabezadoVuelta v) = true := by
  simp only [esEncabezado, encabezadoVuelta]
  exact hasPref_self_append _ _

theorem esEncabezado_mensajeSector (s : ℕ) (t : ℚ) (v : ℕ) :
    esEncabezado (mensajeSector s t v) = false := by
  simp only [esEncabezado, mensajeSector]
  exact hasPref_head_ne _ _ _ '=' 'T' _ _ rfl rfl (by decide)

theorem esEncabezado_inicio (a b : Int) : esEncabezado (inicioMpi a b) = false := by
  simp only [esEncabezado, inicioMpi]
  exact hasPref_head_ne _ _ _ '=' 'I' _ _ rfl rfl (by decide)

theorem esInicioMpi_inicio (a b : Int) : esInicioMpi (inicioMpi a b) = true := by
  simp only [esInicioMpi, inicioMpi]
  exact hasPref_self_append _ _

theorem esInicioMpi_mensajeSector (s : ℕ) (t : ℚ) (v : ℕ) :
    esInicioMpi (mensajeSector s t v) = false := by
  simp only [esInicioMpi, mensajeSector]
  exact hasPref_head_ne _ _ _ 'I' 'T' _ _ rfl rfl (by decide)

theorem esInicioMpi_encabezado (v : ℕ) : esInicioMpi (encabezadoVuelta v) = false := by
  simp only [esInicioMpi, encabezadoVuelta]
  exact hasPref_head_ne _ _ _ 'I' '=' _ _ rfl rfl (by decide)

theorem esResumen_mensajeSector (s : ℕ) (t : ℚ) (v : ℕ) :
    esResumen (mensajeSector s t v) = false := rfl

theorem esResumen_encabezado (v : ℕ) : esResumen (encabezadoVuelta v) = false := rfl

theorem esResumen_inicio (a b : Int) : esResumen (inicioMpi a b) = false := rfl

theorem esFinalizado_mensajeSector (s : ℕ) (t : ℚ) (v : ℕ) :
    esFinalizado (mensajeSector s t v) = false := rfl

theorem esFinalizado_encabezado (v : ℕ) : esFinalizado (encabezadoVuelta v) = false := rfl

theorem esFinalizado_inicio (a b : Int) : esFinalizado (inicioMpi a b) = false := rfl

theorem esSector_resumen : esSector resumenMpi = false := by decide

theorem esSector_finalizado : esSector finalizadoMpi = false := by decide

theorem esEncabezado_resumen : esEncabezado resumenMpi = false := by decide

theorem esEncabezado_finalizado : esEncabezado finalizadoMpi = false := by decide

theorem esInicioMpi_resumen : esInicioMpi resumenMpi = false := by decide

theorem esInicioMpi_finalizado : esInicioMpi finalizadoMpi = false := by decide

theorem esResumen_resumen : esResumen resumenMpi = true := by decide

theorem esResumen_finalizado : esResumen finalizadoMpi = false := by decide

theorem esFinalizado_finalizado : esFinalizado finalizadoMpi = true := by decide

theorem esFinalizado_resumen : esFinalizado resumenMpi = false := by decide

theorem sum_map_const_nat {α : Type} (l : List α) (f : α → ℕ) (c : ℕ)
    (h : ∀ a ∈ l, f a = c) : (l.map f).sum = l.length * c := by
  rw [ List.map_congr_left h, List.map_const', List.sum_replicate, smul_eq_mul]

theorem correrMPI_forma (sectores vueltas : Int) (rnd : ℕ → ℕ → ℕ)
    (h1 : 1 ≤ sectores) (h2 : 1 ≤ vueltas) :
    correrMPI sectores vueltas rnd =
      inicioMpi sectores vueltas ::
        ((List.range' 1 vueltas.toNat).map (fun v =>
          encabezadoVuelta v ::
            (List.range' 1 sectores.toNat).map (fun s =>
              mensajeSector s (tiempoSector (rnd v s)) v))).flatten
        ++ [resumenMpi, finalizadoMpi] := by
  have hs : ¬ sectores < 1 := not_lt.mpr h1
  have hv : ¬ vueltas < 1 := not_lt.mpr h2
  simp [correrMPI, hs, hv]

theorem bloqueVuelta_countP_sector (sectores : Int) (rnd : ℕ → ℕ → ℕ) (v : ℕ) :
    (encabezadoVuelta v ::
      (List.range' 1 sectores.toNat).map (fun s =>
        mensajeSector s (tiempoSector (rnd v s)) v)).countP esSector = sectores.toNat := by
  rw [ List.countP_cons]
  simp only [esSector_encabezado, if_neg]
  rw [ List.countP_map]
  have h : List.countP (esSector ∘ fun s => mensajeSector s (tiempoSector (rnd v s)) v)
      (List.range' 1 sectores.toNat) = (List.range' 1 sectores.toNat).length :=
    List.countP_eq_length.mpr (fun s _ => esSector_mensajeSector s _ v)
  rw [h, List.length_range']
  simp

theorem bloqueVuelta_countP_encabezado (sectores : Int) (rnd : ℕ → ℕ → ℕ) (v : ℕ) :
    (encabezadoVuelta v ::
      (List.range' 1 sectores.toNat).map (fun s =>
        mensajeSector s (tiempoSector (rnd v s)) v)).countP esEncabezado = 1 := by
  rw [ List.countP_cons]
  have h : List.countP esEncabezado
      ((List.range' 1 sectores.toNat).map (fun s =>
        mensajeSector s (tiempoSector (rnd v s)) v)) = 0 := by
    rw [ List.countP_eq_zero]
    intro a ha
    rcases List.mem_map.mp ha with ⟨s, _, rfl⟩
    simp [esEncabezado_mensajeSector]
  rw [h]
  simp [esEncabezado_encabezado]

theorem bloqueVuelta_countP_cero (p : MensajeWS → Bool) (sectores : Int)
    (rnd : ℕ → ℕ → ℕ) (v : ℕ)
    (he : p (encabezadoVuelta v) = false)
    (hm : ∀ s t, p (mensajeSector s t v) = false) :
    (encabezadoVuelta v ::
      (List.range' 1 sectores.toNat).map (fun s =>
        mensajeSector s (tiempoSector (rnd v s)) v)).countP p = 0 := by
  rw [ List.countP_eq_zero]
  intro a ha
  rcases List.mem_cons.mp ha with rfl | hmem
  · simp [he]
  · rcases List.mem_map.mp hmem with ⟨s, _, rfl⟩
    simp [hm]

theorem correrMPI_countP_general (p : MensajeWS → Bool) (sectores vueltas : Int)
    (rnd : ℕ → ℕ → ℕ) (h1 : 1 ≤ sectores) (h2 : 1 ≤ vueltas) (c : ℕ)
    (hblock : ∀ v, (encabezadoVuelta v ::
      (List.range' 1 sectores.toNat).map (fun s =>
        mensajeSector s (tiempoSector (rnd v s)) v)).countP p = c) :
    (correrMPI sectores vueltas rnd).countP p =
      vueltas.toNat * c + ((if p (inicioMpi sectores vueltas) = true then 1 else 0)
        + List.countP p [resumenMpi, finalizadoMpi]) := by
  rw [ correrMPI_forma sectores vueltas rnd h1 h2, List.countP_append,
    List.countP_cons, List.countP_flatten, List.map_map,
    sum_map_const_nat (List.range' 1 vueltas.toNat)
      (List.countP p ∘ fun v =>
        encabezadoVuelta v ::
          (List.range' 1 sectores.toNat).map (fun s =>
            mensajeSector s (tiempoSector (rnd v s)) v)) c
      (fun v _ => hblock v),
    List.length_range']
  ring

/-- **C1** (amended): for `sectores ≥ 1`, `vueltas ≥ 1` the ring run emits
exactly `sectores * vueltas` per-sector records, exactly one start record,
one summary record and one done record, the start record first and the done
record strictly last — plus exactly `vueltas` lap-header records
(`"=== Vuelta v ==="`), which the original claim's "no other records"
clause omits; the total length accounts for every emitted record. -/
theorem correrMPI_conteo (sectores vueltas : Int) (rnd : ℕ → ℕ → ℕ)
    (h1 : 1 ≤ sectores) (h2 : 1 ≤ vueltas) :
    (correrMPI sectores vueltas rnd).countP esSector
        = sectores.toNat * vueltas.toNat ∧
    (correrMPI sectores vueltas rnd).countP esEncabezado = vueltas.toNat ∧
    (correrMPI sectores vueltas rnd).countP esInicioMpi = 1 ∧
    (correrMPI sectores vueltas rnd).countP esResumen = 1 ∧
    (correrMPI sectores vueltas rnd).countP esFinalizado = 1 ∧
    (correrMPI sectores vueltas rnd).head? = some (inicioMpi sectores vueltas) ∧
    (correrMPI sectores vueltas rnd).getLast? = some finalizadoMpi ∧
    (correrMPI sectores vueltas rnd).length
        = 3 + vueltas.toNat * (1 + sectores.toNat) := by
  have hf := correrMPI_forma sectores vueltas rnd h1 h2
  refine ⟨?_, ?_, ?_, ?_, ?_, ?_, ?_, ?_⟩
  · rw [ correrMPI_countP_general esSector sectores vueltas rnd h1 h2 sectores.toNat
      (bloqueVuelta_countP_sector sectores rnd)]
    have ht : List.countP esSector [resumenMpi, finalizadoMpi] = 0 := by decide
    rw [ht]
    simp [esSector_inicio, Nat.mul_comm]
  · rw [ correrMPI_countP_general esEncabezado sectores vueltas rnd h1 h2 1
      (bloqueVuelta_countP_encabezado sectores rnd)]
    have ht : List.countP esEncabezado [resumenMpi, finalizadoMpi] = 0 := by decide
    rw [ht]
    simp [esEncabezado_inicio]
  · rw [ correrMPI_countP_general esInicioMpi sectores vueltas rnd h1 h2 0
      (fun v => bloqueVuelta_countP_cero esInicioMpi sectores rnd v
        (esInicioMpi_encabezado v) (fun s t => esInicioMpi_mensajeSector s t v))]
    have ht : List.countP esInicioMpi [resumenMpi, finalizadoMpi] = 0 := by decide
    rw [ht]
    simp [esInicioMpi_inicio]
  · rw [ correrMPI_countP_general esResumen sectores vueltas rnd h1 h2 0
      (fun v => bloqueVuelta_countP_cero esResumen sectores rnd v
        (esResumen_encabezado v) (fun s t => esResumen_mensajeSector s t v))]
    have ht : List.countP esResumen [resumenMpi, finalizadoMpi] = 1 := by decide
    rw [ht]
    simp [esResumen_inicio]
  · rw [ correrMPI_countP_general esFinalizado sectores vueltas rnd h1 h2 0
      (fun v => bloqueVuelta_countP_cero esFinalizado sectores rnd v
        (esFinalizado_encabezado v) (fun s t => esFinalizado_mensajeSector s t v))]
    have ht : List.countP esFinalizado [resumenMpi, finalizadoMpi] = 1 := by decide
    rw [ht]
    simp [esFinalizado_inicio]
  · rw [hf]
    rfl
  · rw [hf]
    have hsplit : (inicioMpi sectores vueltas ::
        ((List.range' 1 vueltas.toNat).map (fun v =>
          encabezadoVuelta v ::
            (List.range' 1 sectores.toNat).map (fun s =>
              mensajeSector s (tiempoSector (rnd v s)) v))).flatten)
        ++ [resumenMpi, finalizadoMpi] =
        ((inicioMpi sectores vueltas ::
          ((List.range' 1 vueltas.toNat).map (fun v =>
            encabezadoVuelta v ::
              (List.range' 1 sectores.toNat).map (fun s =>
                mensajeSector s (tiempoSector (rnd v s)) v))).flatten)
          ++ [resumenMpi]) ++ [finalizadoMpi] := by
      simp
    rw [hsplit]
    exact List.getLast?_concat _
  · rw [hf, List.length_append, List.length_cons, List.length_flatten,
      List.map_map,
      sum_map_const_nat (List.range' 1 vueltas.toNat)
        (List.length ∘ fun v =>
          encabezadoVuelta v ::
            (List.range' 1 sectores.toNat).map (fun s =>
              mensajeSector s (tiempoSector (rnd v s)) v)) (1 + sectores.toNat)
        (fun v _ => by simp [List.length_range']; omega),
      List.length_range']
    simp
    ring

/-- **C1** counterexample: at `sectores = 1`, `vueltas = 1` the ring run
contains 5 records, not the `1 * 1 + 3 = 4` that the claim's record
inventory ("…plus exactly one start record, one summary record and one
done record; no other records belong to the run") forces — the extra
record is the lap header `"=== Vuelta 1 ==="`. -/
theorem correrMPI_conteo_cex : (correrMPI 1 1 rndCero).length ≠ 1 * 1 + 3 := by decide

/-- Witness for `correrMPI_conteo` at `sectores = 2`, `vueltas = 1`. -/
theorem correrMPI_conteo_witness :
    (1 : Int) ≤ 2 ∧ (1 : Int) ≤ 1 ∧
    ((correrMPI 2 1 rndCero).countP esSector = (2 : Int).toNat * (1 : Int).toNat ∧
     (correrMPI 2 1 rndCero).countP esEncabezado = (1 : Int).toNat ∧
     (correrMPI 2 1 rndCero).countP esInicioMpi = 1 ∧
     (correrMPI 2 1 rndCero).countP esResumen = 1 ∧
     (correrMPI 2 1 rndCero).countP esFinalizado = 1 ∧
     (correrMPI 2 1 rndCero).head? = some (inicioMpi 2 1) ∧
     (correrMPI 2 1 rndCero).getLast? = some finalizadoMpi ∧
     (correrMPI 2 1 rndCero).length = 3 + (1 : Int).toNat * (1 + (2 : Int).toNat)) :=
  ⟨by decide, by decide, correrMPI_conteo 2 1 rndCero (by decide) (by decide)⟩

/-- **C4**: every per-sector duration the ring run generates (each one is
`tiempoSector` of the injected draw, `main.go` line 62) lies in
`[12.00, 35.99]` and is an exact multiple of `1/100` (in fact the code's
`rand.Intn(2300)+1200` even keeps it at or below `34.99`, inside the
claimed interval). -/
theorem tiempoSector_rango (r : ℕ) :
    12 ≤ tiempoSector r ∧ tiempoSector r ≤ 3599 / 100 ∧
    100 * tiempoSector r = ((r % 2300 + 1200 : ℕ) : ℚ) := by
  unfold tiempoSector
  have h1 : (1200 : ℚ) ≤ ((r % 2300 + 1200 : ℕ) : ℚ) := by
    have h : (1200 : ℕ) ≤ r % 2300 + 1200 := by omega
    exact_mod_cast h
  have h2 : ((r % 2300 + 1200 : ℕ) : ℚ) ≤ 3499 := by
    have hlt : r % 2300 < 2300 := Nat.mod_lt _ (by norm_num)
    have h : r % 2300 + 1200 ≤ 3499 := by omega
    exact_mod_cast h
  refine ⟨?_, ?_, ?_⟩
  · rw [ le_div_iff₀ (by norm_num : (0:ℚ) < 100)]
    linarith
  · rw [ div_le_div_iff₀ (by norm_num : (0:ℚ) < 100) (by norm_num : (0:ℚ) < 100)]
    linarith
  · field_simp

/-- **C5**: every per-trial duration the parallel run generates (each one
is `tiempoVuelta` of the injected draw, `main.go` line 109) lies in
`[75.00, 95.99]` seconds and is an exact multiple of `1/100` (the code's
`rand.Intn(2099)+7500` even keeps it at or below `95.98`). -/
theorem tiempoVuelta_rango (r : ℕ) :
    75 ≤ tiempoVuelta r ∧ tiempoVuelta r ≤ 9599 / 100 ∧
    100 * tiempoVuelta r = ((r % 2099 + 7500 : ℕ) : ℚ) := by
  unfold tiempoVuelta
  have h1 : (7500 : ℚ) ≤ ((r % 2099 + 7500 : ℕ) : ℚ) := by
    have h : (7500 : ℕ) ≤ r % 2099 + 7500 := by omega
    exact_mod_cast h
  have h2 : ((r % 2099 + 7500 : ℕ) : ℚ) ≤ 9598 := by
    have hlt : r % 2099 < 2099 := Nat.mod_lt _ (by norm_num)
    have h : r % 2099 + 7500 ≤ 9598 := by omega
    exact_mod_cast h
  refine ⟨?_, ?_, ?_⟩
  · rw [ le_div_iff₀ (by norm_num : (0:ℚ) < 100)]
    linarith
  · rw [ div_le_div_iff₀ (by norm_num : (0:ℚ) < 100) (by norm_num : (0:ℚ) < 100)]
    linarith
  · field_simp

theorem correrOpenMP_forma (autos vueltas : Int) (rnd : ℕ → ℕ → ℕ)
    (h1 : 1 ≤ autos) (h2 : 1 ≤ vueltas) :
    correrOpenMP autos vueltas rnd =
      inicioOmp autos vueltas ::
        ((List.range autos.toNat).map (fun a =>
          (autoLoop a (rnd a) 1 vueltas.toNat (10 ^ 9)).1)).flatten
        ++ [resumenOmp (tablaResultados autos.toNat vueltas.toNat rnd)
              (mejorGeneralDe (tablaResultados autos.toNat vueltas.toNat rnd)),
            finalizadoOmp] := by
  have hs : ¬ autos < 1 := not_lt.mpr h1
  have hv : ¬ vueltas < 1 := not_lt.mpr h2
  simp [correrOpenMP, hs, hv]

/-- **C7**: a unit count `< 1` (sectors for the ring run, cars for the
parallel run) makes the simulator emit exactly one error log record and
one done record and return: no per-sector/per-trial records, no workers,
no result table, no panic — the output is exactly those two records. -/
theorem validacion_unidades (sectores vueltas autos vueltas2 : Int)
    (rnd rnd2 : ℕ → ℕ → ℕ) (h1 : sectores < 1) (h2 : autos < 1) :
    correrMPI sectores vueltas rnd = [errorMpi, finalizadoMpi] ∧
    correrOpenMP autos vueltas2 rnd2 = [errorOmp, finalizadoOmp] := by
  constructor
  · simp [correrMPI, h1]
  · simp [correrOpenMP, h2]

/-- Witness for `validacion_unidades` at `sectores = 0`, `autos = -2`. -/
theorem validacion_unidades_witness :
    ((0 : Int) < 1) ∧ ((-2 : Int) < 1) ∧
    (correrMPI 0 5 rndCero = [errorMpi, finalizadoMpi] ∧
     correrOpenMP (-2) 7 rndCero = [errorOmp, finalizadoOmp]) :=
  ⟨by decide, by decide, validacion_unidades 0 5 (-2) 7 rndCero rndCero (by decide) (by decide)⟩

/-- **C8**: a repetition count `< 1` (`vueltas`) is coerced to `1` by both
simulators — the run is identical to a run with one lap/trial per unit —
and the start record reports the coerced value `1`. -/
theorem coercion_vueltas (sectores vueltas autos vueltas2 : Int)
    (rnd rnd2 : ℕ → ℕ → ℕ) (h1 : vueltas < 1) (h2 : vueltas2 < 1) :
    correrMPI sectores vueltas rnd = correrMPI sectores 1 rnd ∧
    (1 ≤ sectores →
      (correrMPI sectores vueltas rnd).head? = some (inicioMpi sectores 1)) ∧
    correrOpenMP autos vueltas2 rnd2 = correrOpenMP autos 1 rnd2 ∧
    (1 ≤ autos →
      (correrOpenMP autos vueltas2 rnd2).head? = some (inicioOmp autos 1)) := by
  have e1 : (if vueltas < 1 then (1 : Int) else vueltas) = 1 := if_pos h1
  have e2 : (if vueltas2 < 1 then (1 : Int) else vueltas2) = 1 := if_pos h2
  have hmpi : correrMPI sectores vueltas rnd = correrMPI sectores 1 rnd := by
    simp [correrMPI, e1]
  have homp : correrOpenMP autos vueltas2 rnd2 = correrOpenMP autos 1 rnd2 := by
    simp [correrOpenMP, e2]
  refine ⟨hmpi, ?_, homp, ?_⟩
  · intro hsec
    rw [hmpi, correrMPI_forma sectores 1 rnd hsec (le_refl 1)]
    rfl
  · intro haut
    rw [homp, correrOpenMP_forma autos 1 rnd2 haut (le_refl 1)]
    rfl

/-- Witness for `coercion_vueltas` at `vueltas = 0` and `vueltas2 = -3`. -/
theorem coercion_vueltas_witness :
    ((0 : Int) < 1) ∧ ((-3 : Int) < 1) ∧
    (correrMPI 2 0 rndCero = correrMPI 2 1 rndCero ∧
     ((1 : Int) ≤ 2 → (correrMPI 2 0 rndCero).head? = some (inicioMpi 2 1)) ∧
     correrOpenMP 2 (-3) rndCero = correrOpenMP 2 1 rndCero ∧
     ((1 : Int) ≤ 2 → (correrOpenMP 2 (-3) rndCero).head? = some (inicioOmp 2 1))) :=
  ⟨by decide, by decide, coercion_vueltas 2 0 2 (-3) rndCero rndCero (by decide) (by decide)⟩

theorem esMejorDe_mejor (id : ℕ) (t : ℚ) :
    esMejorDe id (mensajeMejorOmp id t) = true := by
  simp only [esMejorDe, mensajeMejorOmp]
  rw [ hasPref_append_left]
  have hre : ("Nueva mejor vuelta: " ++ fmt2 t ++ " s")
      = "Nueva mejor vuelta: " ++ (fmt2 t ++ " s") := by
    simp [String.append_assoc]
  rw [hre]
  exact hasPref_self_append _ _

theorem esMejorDe_vuelta (id v : ℕ) (t : ℚ) :
    esMejorDe id (mensajeVueltaOmp id v t) = false := by
  simp only [esMejorDe, mensajeVueltaOmp]
  rw [ hasPref_append_left]
  have hre : ("Vuelta " ++ toString v ++ ": " ++ fmt2 t ++ " s")
      = "Vuelta " ++ (toString v ++ ": " ++ fmt2 t ++ " s") := by
    simp [String.append_assoc]
  rw [hre]
  exact hasPref_head_ne _ _ _ 'N' 'V' _ _ rfl rfl (by decide)

theorem tiempoVuelta_lt_tope (r : ℕ) : tiempoVuelta r < 10 ^ 9 := by
  unfold tiempoVuelta
  have hlt : r % 2099 < 2099 := Nat.mod_lt _ (by norm_num)
  have h2 : ((r % 2099 + 7500 : ℕ) : ℚ) ≤ 9598 := by
    have h : r % 2099 + 7500 ≤ 9598 := by omega
    exact_mod_cast h
  rw [ div_lt_iff₀ (by norm_num : (0:ℚ) < 100)]
  linarith

theorem tiemposAuto_succ (rnd1 : ℕ → ℕ) (v n : ℕ) :
    tiemposAuto rnd1 v (n + 1) =
      tiempoVuelta (rnd1 v) :: tiemposAuto rnd1 (v + 1) n := by
  unfold tiemposAuto
  rw [ List.range'_succ]
  rfl

theorem autoLoop_best (a : ℕ) (rnd1 : ℕ → ℕ) (n : ℕ) :
    ∀ (v : ℕ) (best : ℚ),
      (autoLoop a rnd1 v n best).2 = (tiemposAuto rnd1 v n).foldl min best := by
  induction n with
  | zero =>
    intro v best
    simp [autoLoop, tiemposAuto]
  | succ n ih =>
    intro v best
    rw [ tiemposAuto_succ]
    by_cases h : tiempoVuelta (rnd1 v) < best
    · simp only [autoLoop, if_pos h]
      rw [ih (v + 1) (tiempoVuelta (rnd1 v)), List.foldl_cons,
        min_eq_right (le_of_lt h)]
    · simp only [autoLoop, if_neg h]
      rw [ih (v + 1) best, List.foldl_cons, min_eq_left (le_of_not_lt h)]

theorem foldl_min_le_mem (L : List ℚ) :
    ∀ (b : ℚ) (x : ℚ), x ∈ L → L.foldl min b ≤ x := by
  induction L with
  | nil => intro b x hx; cases hx
  | cons y ys ih =>
    intro b x hx
    rw [ List.foldl_cons]
    rcases List.mem_cons.mp hx with rfl | hmem
    · calc ys.foldl min (min b x) ≤ min b x := by
            clear ih hx
            induction ys generalizing b x with
            | nil => simp
            | cons z zs ih2 =>
              rw [ List.foldl_cons]
              exact le_trans (ih2 (min b x) z) (min_le_left _ _)
        _ ≤ x := min_le_right _ _
    · exact ih (min b y) x hmem

theorem foldl_min_le_init (L : List ℚ) : ∀ b : ℚ, L.foldl min b ≤ b := by
  induction L with
  | nil => intro b; simp
  | cons y ys ih =>
    intro b
    rw [ List.foldl_cons]
    exact le_trans (ih (min b y)) (min_le_left _ _)

theorem foldl_min_choice (L : List ℚ) :
    ∀ b : ℚ, L.foldl min b = b ∨ L.foldl min b ∈ L := by
  induction L with
  | nil => intro b; left; rfl
  | cons y ys ih =>
    intro b
    rw [ List.foldl_cons]
    rcases ih (min b y) with h | h
    · rcases min_choice b y with hm | hm
      · left; rw [h, hm]
      · right; rw [h, hm]; exact List.mem_cons_self _ _
    · right; exact List.mem_cons_of_mem _ h

theorem resultadoAuto_mejor (a V : ℕ) (rnd1 : ℕ → ℕ) (hV : 1 ≤ V) :
    (resultadoAuto a V rnd1).mejorVuelta ∈ tiemposAuto rnd1 1 V ∧
    ∀ t ∈ tiemposAuto rnd1 1 V, (resultadoAuto a V rnd1).mejorVuelta ≤ t := by
  have hbest : (resultadoAuto a V rnd1).mejorVuelta
      = (tiemposAuto rnd1 1 V).foldl min (10 ^ 9) := by
    simp [resultadoAuto, autoLoop_best]
  constructor
  · rw [hbest]
    rcases foldl_min_choice (tiemposAuto rnd1 1 V) (10 ^ 9) with h | h
    · exfalso
      obtain ⟨m, hm⟩ : ∃ m, V = m + 1 := ⟨V - 1, by omega⟩
      subst hm
      have hmem : tiempoVuelta (rnd1 1) ∈ tiemposAuto rnd1 1 (m + 1) := by
        rw [ tiemposAuto_succ]
        exact List.mem_cons_self _ _
      have hle := foldl_min_le_mem (tiemposAuto rnd1 1 (m + 1)) (10 ^ 9) _ hmem
      rw [h] at hle
      exact absurd hle (not_le.mpr (tiempoVuelta_lt_tope (rnd1 1)))
    · exact h
  · intro t ht
    rw [hbest]
    exact foldl_min_le_mem _ _ _ ht

theorem resultadoAuto_mejor_lt (a V : ℕ) (rnd1 : ℕ → ℕ) (hV : 1 ≤ V) :
    (resultadoAuto a V rnd1).mejorVuelta < 10 ^ 9 := by
  obtain ⟨hmem, _⟩ := resultadoAuto_mejor a V rnd1 hV
  rcases List.mem_map.mp hmem with ⟨i, _, hi⟩
  rw [← hi]
  exact tiempoVuelta_lt_tope _

/-- **C2**: for `autos ≥ 1`, `vueltas ≥ 1` the completed shared result
table has exactly `autos` entries; entry `a` carries worker id `a + 1`,
records exactly `vueltas` trials, and its `mejorVuelta` is the minimum of
worker `a`'s own generated trial durations — and it depends only on worker
`a`'s own draw sequence, never on another worker's. -/
theorem tabla_resultados_correcta (autos vueltas : Int) (rnd : ℕ → ℕ → ℕ)
    (h1 : 1 ≤ autos) (h2 : 1 ≤ vueltas) :
    (tablaResultados autos.toNat vueltas.toNat rnd).length = autos.toNat ∧
    ∀ a, a < autos.toNat →
      ∃ r, (tablaResultados autos.toNat vueltas.toNat rnd)[a]? = some r ∧
        r.autoID = (a : ℤ) + 1 ∧
        r.cantidadVueltas = vueltas ∧
        r.mejorVuelta ∈ tiemposAuto (rnd a) 1 vueltas.toNat ∧
        (∀ t ∈ tiemposAuto (rnd a) 1 vueltas.toNat, r.mejorVuelta ≤ t) ∧
        (∀ rnd' : ℕ → ℕ → ℕ, rnd' a = rnd a →
          (tablaResultados autos.toNat vueltas.toNat rnd')[a]? = some r) := by
  have hV : 1 ≤ vueltas.toNat := by omega
  constructor
  · simp [tablaResultados]
  · intro a ha
    refine ⟨resultadoAuto a vueltas.toNat (rnd a), ?_, rfl, ?_, ?_, ?_, ?_⟩
    · simp [tablaResultados, List.getElem?_map, List.getElem?_range ha]
    · simp only [resultadoAuto]
      omega
    · exact (resultadoAuto_mejor a _ (rnd a) hV).1
    · exact (resultadoAuto_mejor a _ (rnd a) hV).2
    · intro rnd' h
      simp [tablaResultados, List.getElem?_map, List.getElem?_range ha, h]

/-- Witness for `tabla_resultados_correcta` at `autos = 2`, `vueltas = 3`. -/
theorem tabla_resultados_correcta_witness :
    (1 : Int) ≤ 2 ∧ (1 : Int) ≤ 3 ∧
    ((tablaResultados (2 : Int).toNat (3 : Int).toNat rndCero).length = (2 : Int).toNat ∧
     ∀ a, a < (2 : Int).toNat →
      ∃ r, (tablaResultados (2 : Int).toNat (3 : Int).toNat rndCero)[a]? = some r ∧
        r.autoID = (a : ℤ) + 1 ∧
        r.cantidadVueltas = 3 ∧
        r.mejorVuelta ∈ tiemposAuto (rndCero a) 1 (3 : Int).toNat ∧
        (∀ t ∈ tiemposAuto (rndCero a) 1 (3 : Int).toNat, r.mejorVuelta ≤ t) ∧
        (∀ rnd' : ℕ → ℕ → ℕ, rnd' a = rndCero a →
          (tablaResultados (2 : Int).toNat (3 : Int).toNat rnd')[a]? = some r)) :=
  ⟨by decide, by decide, tabla_resultados_correcta 2 3 rndCero (by decide) (by decide)⟩

theorem foldPM_eleccion (l : List ResultadoOpenMP) :
    ∀ acc : ResultadoOpenMP,
      l.foldl pasoMejor acc = acc ∨
      (l.foldl pasoMejor acc ∈ l ∧
        (l.foldl pasoMejor acc).mejorVuelta < acc.mejorVuelta) := by
  induction l with
  | nil => intro acc; left; rfl
  | cons r0 rest ih =>
    intro acc
    rw [ List.foldl_cons]
    by_cases h : r0.mejorVuelta < acc.mejorVuelta
    · have e : pasoMejor acc r0 = r0 := if_pos h
      rw [e]
      rcases ih r0 with h2 | ⟨h2, h3⟩
      · right
        exact ⟨by rw [h2]; exact List.mem_cons_self _ _, by rw [h2]; exact h⟩
      · right
        exact ⟨List.mem_cons_of_mem _ h2, lt_trans h3 h⟩
    · have e : pasoMejor acc r0 = acc := if_neg h
      rw [e]
      rcases ih acc with h2 | ⟨h2, h3⟩
      · left
        exact h2
      · right
        exact ⟨List.mem_cons_of_mem _ h2, h3⟩

theorem foldPM_cota (l : List ResultadoOpenMP) :
    ∀ acc, (l.foldl pasoMejor acc).mejorVuelta ≤ acc.mejorVuelta ∧
      ∀ r ∈ l, (l.foldl pasoMejor acc).mejorVuelta ≤ r.mejorVuelta := by
  induction l with
  | nil =>
    intro acc
    exact ⟨le_refl _, fun r hr => absurd hr (List.not_mem_nil r)⟩
  | cons r0 rest ih =>
    intro acc
    rw [ List.foldl_cons]
    have hacc : (pasoMejor acc r0).mejorVuelta ≤ acc.mejorVuelta ∧
        (pasoMejor acc r0).mejorVuelta ≤ r0.mejorVuelta := by
      unfold pasoMejor
      by_cases h : r0.mejorVuelta < acc.mejorVuelta
      · rw [if_pos h]
        exact ⟨le_of_lt h, le_refl _⟩
      · rw [if_neg h]
        exact ⟨le_refl _, le_of_not_lt h⟩
    obtain ⟨ha, hb⟩ := ih (pasoMejor acc r0)
    refine ⟨le_trans ha hacc.1, ?_⟩
    intro r hr
    rcases List.mem_cons.mp hr with rfl | hmem
    · exact le_trans ha hacc.2
    · exact hb r hmem

theorem foldPM_primero (l : List ResultadoOpenMP) :
    ∀ acc : ResultadoOpenMP,
      (acc :: l).Pairwise (fun x y => x.autoID < y.autoID) →
      ∀ r ∈ l, r.mejorVuelta = (l.foldl pasoMejor acc).mejorVuelta →
        (l.foldl pasoMejor acc).autoID ≤ r.autoID := by
  induction l with
  | nil =>
    intro acc _ r hr
    cases hr
  | cons r0 rest ih =>
    intro acc hord r hr htie
    rw [ List.foldl_cons] at htie ⊢
    have har0 : acc.autoID < r0.autoID :=
      (List.pairwise_cons.mp hord).1 r0 (List.mem_cons_self _ _)
    have hordtail : (r0 :: rest).Pairwise (fun x y => x.autoID < y.autoID) :=
      (List.pairwise_cons.mp hord).2
    by_cases h : r0.mejorVuelta < acc.mejorVuelta
    · have e : pasoMejor acc r0 = r0 := if_pos h
      rw [e] at htie ⊢
      rcases List.mem_cons.mp hr with rfl | hmem
      · rcases foldPM_eleccion rest r with h2 | ⟨_, h3⟩
        · rw [h2]
        · exfalso
          rw [← htie] at h3
          exact lt_irrefl _ h3
      · exact ih r0 hordtail r hmem htie
    · have e : pasoMejor acc r0 = acc := if_neg h
      rw [e] at htie ⊢
      have hordacc : (acc :: rest).Pairwise (fun x y => x.autoID < y.autoID) := by
        rw [ List.pairwise_cons] at hord ⊢
        exact ⟨fun y hy => hord.1 y (List.mem_cons_of_mem _ hy),
          (List.pairwise_cons.mp hord.2).2⟩
      rcases List.mem_cons.mp hr with rfl | hmem
      · rcases foldPM_eleccion rest acc with h2 | ⟨_, h3⟩
        · rw [h2]
          exact le_of_lt har0
        · exfalso
          have hcontra : r.mejorVuelta < acc.mejorVuelta := by
            rw [htie]
            exact h3
          exact h hcontra
      · exact ih acc hordacc r hmem htie

theorem tabla_ordenada (A V : ℕ) (rnd : ℕ → ℕ → ℕ) :
    (centinelaOmp :: tablaResultados A V rnd).Pairwise
      (fun x y => x.autoID < y.autoID) := by
  rw [ List.pairwise_cons]
  constructor
  · intro y hy
    rcases List.mem_map.mp hy with ⟨a, _, rfl⟩
    simp only [centinelaOmp, resultadoAuto]
    omega
  · simp only [tablaResultados]
    rw [ List.pairwise_map]
    refine List.Pairwise.imp ?_ (List.pairwise_lt_range A)
    intro i j hij
    simp only [resultadoAuto]
    omega

/-- **C3**: the aggregation of `main.go` lines 127–132 selects a table
entry whose `mejorVuelta` is minimal across all entries; on ties the entry
with the lowest worker id wins (entries are scanned in increasing id
order and only a strict improvement replaces the accumulator); and with an
identical injected draw sequence the aggregation result is identical. -/
theorem mejorGeneral_correcto (autos vueltas : Int) (rnd rnd' : ℕ → ℕ → ℕ)
    (h1 : 1 ≤ autos) (h2 : 1 ≤ vueltas) (hdet : ∀ a v, rnd a v = rnd' a v) :
    mejorGeneralDe (tablaResultados autos.toNat vueltas.toNat rnd)
        ∈ tablaResultados autos.toNat vueltas.toNat rnd ∧
    (∀ r ∈ tablaResultados autos.toNat vueltas.toNat rnd,
      (mejorGeneralDe (tablaResultados autos.toNat vueltas.toNat rnd)).mejorVuelta
        ≤ r.mejorVuelta) ∧
    (∀ r ∈ tablaResultados autos.toNat vueltas.toNat rnd,
      r.mejorVuelta
          = (mejorGeneralDe (tablaResultados autos.toNat vueltas.toNat rnd)).mejorVuelta →
      (mejorGeneralDe (tablaResultados autos.toNat vueltas.toNat rnd)).autoID
        ≤ r.autoID) ∧
    mejorGeneralDe (tablaResultados autos.toNat vueltas.toNat rnd)
      = mejorGeneralDe (tablaResultados autos.toNat vueltas.toNat rnd') := by
  have hV : 1 ≤ vueltas.toNat := by omega
  have hA : 1 ≤ autos.toNat := by omega
  have h0 : resultadoAuto 0 vueltas.toNat (rnd 0)
      ∈ tablaResultados autos.toNat vueltas.toNat rnd := by
    simp only [tablaResultados]
    exact List.mem_map_of_mem _ (List.mem_range.mpr (by omega))
  have hlt : (resultadoAuto 0 vueltas.toNat (rnd 0)).mejorVuelta
      < centinelaOmp.mejorVuelta := by
    simpa [centinelaOmp] using resultadoAuto_mejor_lt 0 vueltas.toNat (rnd 0) hV
  have hmem : mejorGeneralDe (tablaResultados autos.toNat vueltas.toNat rnd)
      ∈ tablaResultados autos.toNat vueltas.toNat rnd := by
    rcases foldPM_eleccion (tablaResultados autos.toNat vueltas.toNat rnd)
        centinelaOmp with h | ⟨h, _⟩
    · exfalso
      have hb := (foldPM_cota (tablaResultados autos.toNat vueltas.toNat rnd)
        centinelaOmp).2 _ h0
      rw [show (tablaResultados autos.toNat vueltas.toNat rnd).foldl pasoMejor
          centinelaOmp = mejorGeneralDe (tablaResultados autos.toNat vueltas.toNat rnd)
          from rfl] at h hb
      rw [h] at hb
      exact absurd hb (not_le.mpr hlt)
    · exact h
  refine ⟨hmem, ?_, ?_, ?_⟩
  · exact (foldPM_cota (tablaResultados autos.toNat vueltas.toNat rnd) centinelaOmp).2
  · exact foldPM_primero (tablaResultados autos.toNat vueltas.toNat rnd) centinelaOmp
      (tabla_ordenada autos.toNat vueltas.toNat rnd)
  · have he : rnd = rnd' := funext (fun a => funext (fun v => hdet a v))
    rw [he]

/-- Witness for `mejorGeneral_correcto` at `autos = 2`, `vueltas = 2`. -/
theorem mejorGeneral_correcto_witness :
    (1 : Int) ≤ 2 ∧ (1 : Int) ≤ 2 ∧
    (mejorGeneralDe (tablaResultados (2 : Int).toNat (2 : Int).toNat rndCero)
        ∈ tablaResultados (2 : Int).toNat (2 : Int).toNat rndCero ∧
     (∀ r ∈ tablaResultados (2 : Int).toNat (2 : Int).toNat rndCero,
       (mejorGeneralDe (tablaResultados (2 : Int).toNat (2 : Int).toNat rndCero)).mejorVuelta
         ≤ r.mejorVuelta) ∧
     (∀ r ∈ tablaResultados (2 : Int).toNat (2 : Int).toNat rndCero,
       r.mejorVuelta
           = (mejorGeneralDe (tablaResultados (2 : Int).toNat (2 : Int).toNat rndCero)).mejorVuelta →
       (mejorGeneralDe (tablaResultados (2 : Int).toNat (2 : Int).toNat rndCero)).autoID
         ≤ r.autoID) ∧
     mejorGeneralDe (tablaResultados (2 : Int).toNat (2 : Int).toNat rndCero)
       = mejorGeneralDe (tablaResultados (2 : Int).toNat (2 : Int).toNat rndCero)) :=
  ⟨by decide, by decide,
    mejorGeneral_correcto 2 2 rndCero rndCero (by decide) (by decide) (fun _ _ => rfl)⟩

theorem autoLoop_succ_pos (a : ℕ) (rnd1 : ℕ → ℕ) (v n : ℕ) (best : ℚ)
    (h : tiempoVuelta (rnd1 v) < best) :
    autoLoop a rnd1 v (n + 1) best =
      (mensajeVueltaOmp (a + 1) v (tiempoVuelta (rnd1 v)) ::
        mensajeMejorOmp (a + 1) (tiempoVuelta (rnd1 v)) ::
        (autoLoop a rnd1 (v + 1) n (tiempoVuelta (rnd1 v))).1,
       (autoLoop a rnd1 (v + 1) n (tiempoVuelta (rnd1 v))).2) := by
  simp [autoLoop, h]

theorem autoLoop_succ_neg (a : ℕ) (rnd1 : ℕ → ℕ) (v n : ℕ) (best : ℚ)
    (h : ¬ tiempoVuelta (rnd1 v) < best) :
    autoLoop a rnd1 v (n + 1) best =
      (mensajeVueltaOmp (a + 1) v (tiempoVuelta (rnd1 v)) ::
        (autoLoop a rnd1 (v + 1) n best).1,
       (autoLoop a rnd1 (v + 1) n best).2) := by
  simp [autoLoop, h]

theorem autoLoop_countP_le (a : ℕ) (rnd1 : ℕ → ℕ) (n : ℕ) :
    ∀ (v : ℕ) (best : ℚ),
      ((autoLoop a rnd1 v n best).1).countP (esMejorDe (a + 1)) ≤ n := by
  induction n with
  | zero =>
    intro v best
    simp [autoLoop]
  | succ n ih =>
    intro v best
    by_cases h : tiempoVuelta (rnd1 v) < best
    · rw [ autoLoop_succ_pos a rnd1 v n best h]
      simp only [List.countP_cons, esMejorDe_vuelta, esMejorDe_mejor]
      have hr := ih (v + 1) (tiempoVuelta (rnd1 v))
      simp only [Bool.false_eq_true, if_false, if_true]
      omega
    · rw [ autoLoop_succ_neg a rnd1 v n best h]
      simp only [List.countP_cons, esMejorDe_vuelta]
      have hr := ih (v + 1) best
      simp only [Bool.false_eq_true, if_false]
      omega

theorem autoLoop_countP_pos (a : ℕ) (rnd1 : ℕ → ℕ) (n v : ℕ) (best : ℚ)
    (hn : 1 ≤ n) (h : tiempoVuelta (rnd1 v) < best) :
    1 ≤ ((autoLoop a rnd1 v n best).1).countP (esMejorDe (a + 1)) := by
  obtain ⟨m, rfl⟩ : ∃ m, n = m + 1 := ⟨n - 1, by omega⟩
  rw [ autoLoop_succ_pos a rnd1 v m best h]
  simp only [List.countP_cons, esMejorDe_vuelta, esMejorDe_mejor]
  simp only [Bool.false_eq_true, if_false, if_true]
  omega

theorem mejorGeneral_en_tabla (autos vueltas : Int) (rnd : ℕ → ℕ → ℕ)
    (h1 : 1 ≤ autos) (h2 : 1 ≤ vueltas) :
    mejorGeneralDe (tablaResultados autos.toNat vueltas.toNat rnd)
      ∈ tablaResultados autos.toNat vueltas.toNat rnd := by
  have hV : 1 ≤ vueltas.toNat := by omega
  have h0 : resultadoAuto 0 vueltas.toNat (rnd 0)
      ∈ tablaResultados autos.toNat vueltas.toNat rnd := by
    simp only [tablaResultados]
    exact List.mem_map_of_mem _ (List.mem_range.mpr (by omega))
  have hlt : (resultadoAuto 0 vueltas.toNat (rnd 0)).mejorVuelta
      < centinelaOmp.mejorVuelta := by
    simpa [centinelaOmp] using resultadoAuto_mejor_lt 0 vueltas.toNat (rnd 0) hV
  rcases foldPM_eleccion (tablaResultados autos.toNat vueltas.toNat rnd)
      centinelaOmp with h | ⟨h, _⟩
  · exfalso
    have hb := (foldPM_cota (tablaResultados autos.toNat vueltas.toNat rnd)
      centinelaOmp).2 _ h0
    rw [show (tablaResultados autos.toNat vueltas.toNat rnd).foldl pasoMejor
        centinelaOmp = mejorGeneralDe (tablaResultados autos.toNat vueltas.toNat rnd)
        from rfl] at h hb
    rw [h] at hb
    exact absurd hb (not_le.mpr hlt)
  · exact h

/-- **C10**: the running minimum starts at `1e9`; every generated trial
duration is strictly below it, so each worker's first trial emits a
personal-best record (between `1` and `vueltas` such records per worker,
and the first two records of a worker are its first trial record followed
by the personal-best record); every table entry's `mejorVuelta` is
strictly below `1e9`; and the overall best carries a real worker id in
`1..autos` — the sentinel id `-1` never survives into the summary. -/
theorem mejor_personal_y_centinela (autos vueltas : Int) (rnd : ℕ → ℕ → ℕ)
    (h1 : 1 ≤ autos) (h2 : 1 ≤ vueltas) :
    (∀ r : ℕ, tiempoVuelta r < 10 ^ 9) ∧
    (∀ a, a < autos.toNat →
      1 ≤ ((autoLoop a (rnd a) 1 vueltas.toNat (10 ^ 9)).1).countP (esMejorDe (a + 1)) ∧
      ((autoLoop a (rnd a) 1 vueltas.toNat (10 ^ 9)).1).countP (esMejorDe (a + 1))
        ≤ vueltas.toNat ∧
      ((autoLoop a (rnd a) 1 vueltas.toNat (10 ^ 9)).1).take 2 =
        [mensajeVueltaOmp (a + 1) 1 (tiempoVuelta (rnd a 1)),
         mensajeMejorOmp (a + 1) (tiempoVuelta (rnd a 1))]) ∧
    (∀ r ∈ tablaResultados autos.toNat vueltas.toNat rnd,
      r.mejorVuelta < 10 ^ 9) ∧
    1 ≤ (mejorGeneralDe (tablaResultados autos.toNat vueltas.toNat rnd)).autoID ∧
    (mejorGeneralDe (tablaResultados autos.toNat vueltas.toNat rnd)).autoID ≤ autos ∧
    (mejorGeneralDe (tablaResultados autos.toNat vueltas.toNat rnd)).autoID ≠ -1 := by
  have hV : 1 ≤ vueltas.toNat := by omega
  refine ⟨tiempoVuelta_lt_tope, ?_, ?_, ?_⟩
  · intro a _
    have hfirst : tiempoVuelta (rnd a 1) < 10 ^ 9 := tiempoVuelta_lt_tope _
    refine ⟨autoLoop_countP_pos a (rnd a) vueltas.toNat 1 (10 ^ 9) hV hfirst,
      autoLoop_countP_le a (rnd a) vueltas.toNat 1 (10 ^ 9), ?_⟩
    obtain ⟨m, hm⟩ : ∃ m, vueltas.toNat = m + 1 := ⟨vueltas.toNat - 1, by omega⟩
    rw [hm, autoLoop_succ_pos a (rnd a) 1 m (10 ^ 9) hfirst]
    rfl
  · intro r hr
    rcases List.mem_map.mp hr with ⟨a, _, rfl⟩
    exact resultadoAuto_mejor_lt a vueltas.toNat (rnd a) hV
  · have hmem := mejorGeneral_en_tabla autos vueltas rnd h1 h2
    rcases List.mem_map.mp hmem with ⟨a, ha, hid⟩
    have ha2 : a < autos.toNat := List.mem_range.mp ha
    have hauto : (mejorGeneralDe (tablaResultados autos.toNat vueltas.toNat rnd)).autoID
        = (a : ℤ) + 1 := by
      rw [← hid]
      rfl
    refine ⟨?_, ?_, ?_⟩
    · rw [hauto]
      omega
    · rw [hauto]
      omega
    · rw [hauto]
      omega

/-- Witness for `mejor_personal_y_centinela` at `autos = 2`, `vueltas = 2`. -/
theorem mejor_personal_y_centinela_witness :
    (1 : Int) ≤ 2 ∧ (1 : Int) ≤ 2 ∧
    ((∀ r : ℕ, tiempoVuelta r < 10 ^ 9) ∧
     (∀ a, a < (2 : Int).toNat →
       1 ≤ ((autoLoop a (rndCero a) 1 (2 : Int).toNat (10 ^ 9)).1).countP (esMejorDe (a + 1)) ∧
       ((autoLoop a (rndCero a) 1 (2 : Int).toNat (10 ^ 9)).1).countP (esMejorDe (a + 1))
         ≤ (2 : Int).toNat ∧
       ((autoLoop a (rndCero a) 1 (2 : Int).toNat (10 ^ 9)).1).take 2 =
         [mensajeVueltaOmp (a + 1) 1 (tiempoVuelta (rndCero a 1)),
          mensajeMejorOmp (a + 1) (tiempoVuelta (rndCero a 1))]) ∧
     (∀ r ∈ tablaResultados (2 : Int).toNat (2 : Int).toNat rndCero,
       r.mejorVuelta < 10 ^ 9) ∧
     1 ≤ (mejorGeneralDe (tablaResultados (2 : Int).toNat (2 : Int).toNat rndCero)).autoID ∧
     (mejorGeneralDe (tablaResultados (2 : Int).toNat (2 : Int).toNat rndCero)).autoID ≤ 2 ∧
     (mejorGeneralDe (tablaResultados (2 : Int).toNat (2 : Int).toNat rndCero)).autoID ≠ -1) :=
  ⟨by decide, by decide, mejor_personal_y_centinela 2 2 rndCero (by decide) (by decide)⟩

theorem correrMPIEnCanal_cerrado (sectores vueltas : Int) (rnd : ℕ → ℕ → ℕ)
    (c : Canal MensajeWS) (h : c.cerrado = true) :
    correrMPIEnCanal sectores vueltas rnd c
      = Except.error FalloGo.envioEnCanalCerrado := by
  obtain ⟨m, rest, he⟩ : ∃ m rest, correrMPI sectores vueltas rnd = m :: rest := by
    unfold correrMPI
    by_cases hs : sectores < 1
    · exact ⟨errorMpi, [finalizadoMpi], by rw [if_pos hs]⟩
    · refine ⟨inicioMpi sectores (if vueltas < 1 then 1 else vueltas),
        ((List.range' 1 (if vueltas < 1 then 1 else vueltas).toNat).map (fun v =>
          encabezadoVuelta v ::
            (List.range' 1 sectores.toNat).map (fun s =>
              mensajeSector s (tiempoSector (rnd v s)) v))).flatten
          ++ [resumenMpi, finalizadoMpi], ?_⟩
      rw [if_neg hs]
      rfl
  unfold correrMPIEnCanal
  rw [he, List.foldlM_cons]
  have hsend : enviarCanal c m = Except.error FalloGo.envioEnCanalCerrado := by
    unfold enviarCanal
    rw [if_pos h]
  rw [hsend]
  rfl

/-- **C6** (code bug): the spec's ClosedSink contract — a submit after the
sink closes fails with an error fatal only to the submitting producer and
must not crash the process — is not what `main.go` does.  `enviar` is a
plain Go channel closed by `wsHandler` on return (line 153), a producer
goroutine still running then panics on its next send (`main.go` lines
55–73), and with no `recover` anywhere the panic terminates the whole
process.  Evaluated at the failing input: a ring run whose channel has
already been closed fails with the send-on-closed-channel panic (already
on its first record), and the panic propagates out of the producer. -/
theorem envio_tras_cierre :
    enviarCanal canalCerrado (inicioMpi 5 3)
      = Except.error FalloGo.envioEnCanalCerrado ∧
    correrMPIEnCanal 5 3 rndCero canalCerrado
      = Except.error FalloGo.envioEnCanalCerrado :=
  ⟨rfl, correrMPIEnCanal_cerrado 5 3 rndCero canalCerrado rfl⟩

/-- **C9** counterexample: with every numeric field absent, the dispatcher
of `main.go` (lines 172–192) resolves `iniciar_mpi` to
`sectores = 1, vueltas = 1` — not the claimed `5, 3` — and
`iniciar_openmp` to `autos = 3, vueltas = 5` — not the claimed `4, 5`. -/
theorem despacho_defaults_cex :
    (resolverSectores comandoMpiVacio, resolverVueltasMpi comandoMpiVacio)
        ≠ ((5 : Int), (3 : Int)) ∧
    (resolverAutos comandoOmpVacio, resolverVueltasOmp comandoOmpVacio)
        ≠ ((4 : Int), (5 : Int)) ∧
    (resolverSectores comandoMpiVacio, resolverVueltasMpi comandoMpiVacio)
        = ((1 : Int), (1 : Int)) ∧
    (resolverAutos comandoOmpVacio, resolverVueltasOmp comandoOmpVacio)
        = ((3 : Int), (5 : Int)) := by
  refine ⟨?_, ?_, ?_, ?_⟩ <;> decide

/-- **C9** (amended): for a start command whose numeric fields are absent
or non-numeric, the dispatcher defaults `sectores` to `1` and `vueltas` to
`1` for `iniciar_mpi`, and `autos` to `3` and `vueltas` to `5` for
`iniciar_openmp`, and invokes the corresponding simulator with exactly
those values. -/
theorem despacho_defaults (c d : ComandoWS) (rnd : ℕ → ℕ → ℕ)
    (hc1 : c.action = some "iniciar_mpi")
    (hc2 : ∀ q, c.sectores ≠ CampoJson.numero q)
    (hc3 : ∀ q, c.vueltas ≠ CampoJson.numero q)
    (hd1 : d.action = some "iniciar_openmp")
    (hd2 : ∀ q, d.autos ≠ CampoJson.numero q)
    (hd3 : ∀ q, d.vueltas ≠ CampoJson.numero q) :
    resolverSectores c = 1 ∧ resolverVueltasMpi c = 1 ∧
    resolverAutos d = 3 ∧ resolverVueltasOmp d = 5 ∧
    despachar c rnd = correrMPI 1 1 rnd ∧
    despachar d rnd = correrOpenMP 3 5 rnd := by
  have e1 : resolverSectores c = 1 := by
    cases h : c.sectores with
    | numero q => exact absurd h (hc2 q)
    | ausente => simp [resolverSectores, h]
    | otro => simp [resolverSectores, h]
  have e2 : resolverVueltasMpi c = 1 := by
    cases h : c.vueltas with
    | numero q => exact absurd h (hc3 q)
    | ausente => simp [resolverVueltasMpi, h]
    | otro => simp [resolverVueltasMpi, h]
  have e3 : resolverAutos d = 3 := by
    cases h : d.autos with
    | numero q => exact absurd h (hd2 q)
    | ausente => simp [resolverAutos, h]
    | otro => simp [resolverAutos, h]
  have e4 : resolverVueltasOmp d = 5 := by
    cases h : d.vueltas with
    | numero q => exact absurd h (hd3 q)
    | ausente => simp [resolverVueltasOmp, h]
    | otro => simp [resolverVueltasOmp, h]
  refine ⟨e1, e2, e3, e4, ?_, ?_⟩
  · unfold despachar
    rw [hc1, e1, e2]
    rfl
  · unfold despachar
    rw [hd1, e3, e4]
    rfl

/-- Witness for `despacho_defaults` on the two all-fields-absent
commands. -/
theorem despacho_defaults_witness :
    comandoMpiVacio.action = some "iniciar_mpi" ∧
    (∀ q, comandoMpiVacio.sectores ≠ CampoJson.numero q) ∧
    (∀ q, comandoMpiVacio.vueltas ≠ CampoJson.numero q) ∧
    comandoOmpVacio.action = some "iniciar_openmp" ∧
    (∀ q, comandoOmpVacio.autos ≠ CampoJson.numero q) ∧
    (∀ q, comandoOmpVacio.vueltas ≠ CampoJson.numero q) ∧
    (resolverSectores comandoMpiVacio = 1 ∧ resolverVueltasMpi comandoMpiVacio = 1 ∧
     resolverAutos comandoOmpVacio = 3 ∧ resolverVueltasOmp comandoOmpVacio = 5 ∧
     despachar comandoMpiVacio rndCero = correrMPI 1 1 rndCero ∧
     despachar comandoOmpVacio rndCero = correrOpenMP 3 5 rndCero) :=
  ⟨rfl, fun _ h => CampoJson.noConfusion h, fun _ h => CampoJson.noConfusion h,
   rfl, fun _ h => CampoJson.noConfusion h, fun _ h => CampoJson.noConfusion h,
   despacho_defaults comandoMpiVacio comandoOmpVacio rndCero rfl
     (fun _ h => CampoJson.noConfusion h) (fun _ h => CampoJson.noConfusion h) rfl
     (fun _ h => CampoJson.noConfusion h) (fun _ h => CampoJson.noConfusion h)⟩
